import Mathlib

/-!
Shallow embedding of the security-monitoring core of
`src/mcp-windows-python/src/server.py` (class `WindowsSecurityServer`)
and proofs about it.

Times (`time.time()` floats) are modelled as rationals, pids and integer
second timestamps as naturals, strings as `String` / `List Char`.
-/

namespace WinSec

/-- Lower-casing of a character list, modelling Python `str.lower()`
(character-wise; agrees with Python on ASCII text). -/
def lowerChars (s : List Char) : List Char := s.map Char.toLower

/-- Python's substring test `needle in haystack` on strings, as an
executable check over character lists. -/
def listContains (needle haystack : List Char) : Bool :=
  haystack.tails.any (fun t => needle.isPrefixOf t)

/-- The threat-pattern table returned by `_load_threat_patterns`
(server.py lines 520-540). -/
structure ThreatPatterns where
  suspiciousProcesses : List (List Char)
  suspiciousConnections : List (List Char)
  highCpuThreshold : ℚ
  highMemoryThreshold : ℚ
  suspiciousNetworkPorts : List Nat

def loadThreatPatterns : ThreatPatterns where
  suspiciousProcesses :=
    [ "powershell.exe -enc".toList,
      "cmd.exe /c whoami".toList,
      "netstat -an".toList,
      "tasklist /svc".toList,
      "systeminfo".toList,
      "wmic".toList ]
  suspiciousConnections :=
    [ "nc.exe".toList, "netcat".toList, "psexec".toList, "mimikatz".toList ]
  highCpuThreshold := 90
  highMemoryThreshold := 85
  suspiciousNetworkPorts := [4444, 5555, 6666, 8080, 9999]

/-- One sampled process, as consumed by `_monitor_threats`
(`psutil.process_iter(['pid','name','cmdline','cpu_percent','memory_percent'])`).
`cmdline` is the argv list (`None` becomes `[]`); `cpu_percent` /
`memory_percent` may be absent (`None`). -/
structure ProcessFact where
  pid : Nat
  procName : String
  cmdline : List (List Char)
  cpuPercent : Option ℚ
  memoryPercent : Option ℚ
  deriving DecidableEq

/-- `' '.join(proc_info['cmdline'] or [])` (server.py line 565). -/
def joinedCmdline (p : ProcessFact) : List Char :=
  List.intercalate [' '] p.cmdline

/-- A recorded security alert (the dicts appended to `self.security_alerts`
by `_handle_threat_detection`; timestamps are kept abstract as rationals). -/
inductive SecurityAlert where
  | suspiciousProcess (pid : Nat) (procName : String)
      (cmdline : List Char) (pattern : List Char) (timestamp : ℚ)
  | highCpuUsage (pid : Nat) (procName : String)
      (cpuPercent : ℚ) (timestamp : ℚ)
  deriving DecidableEq

/-- The `'type'` field of the alert dict. -/
def SecurityAlert.kind : SecurityAlert → String
  | .suspiciousProcess .. => "suspicious_process"
  | .highCpuUsage .. => "high_cpu_usage"

/-- The command-signature loop of `_monitor_threats` (server.py lines
567-577) for one process: for each pattern, an alert is raised when
`pattern.lower() in cmdline.lower()`. -/
def commandAlerts (patterns : List (List Char)) (now : ℚ) (p : ProcessFact) :
    List SecurityAlert :=
  patterns.filterMap (fun pat =>
    if listContains (lowerChars pat) (lowerChars (joinedCmdline p)) then
      some (.suspiciousProcess p.pid p.procName (joinedCmdline p) pat now)
    else none)

/-- The resource-usage check of `_monitor_threats` (server.py lines
579-587): `if proc_info['cpu_percent'] and proc_info['cpu_percent'] >
self.threat_patterns['high_cpu_threshold']`.  Python truthiness makes a
missing (`None`) or zero cpu sample fail the first conjunct.  There is no
corresponding check of `memory_percent` anywhere in the function. -/
def cpuAlert (tp : ThreatPatterns) (now : ℚ) (p : ProcessFact) :
    Option SecurityAlert :=
  match p.cpuPercent with
  | none => none
  | some c =>
      if c ≠ 0 ∧ c > tp.highCpuThreshold then
        some (.highCpuUsage p.pid p.procName c now)
      else none

/-- All alerts `_monitor_threats` raises for one sampled process. -/
def monitorProcess (tp : ThreatPatterns) (now : ℚ) (p : ProcessFact) :
    List SecurityAlert :=
  commandAlerts tp.suspiciousProcesses now p ++ (cpuAlert tp now p).toList

/-- A process exceeding the configured memory threshold but not the cpu
one (its cpu sample is absent), used to examine the resource check. -/
def memHogFact : ProcessFact where
  pid := 7
  procName := "hog"
  cmdline := []
  cpuPercent := none
  memoryPercent := some 99

/- ## Firewall rules and the rule ledger (`self.active_firewall_rules`) -/

/-- Rule names are the strings built by the server; character-list view. -/
abbrev RuleName := List Char

/-- One tracked rule, the dict stored in `self.active_firewall_rules`
(display-only extras `duration_minutes` / `threat_info` omitted). -/
structure FirewallRule where
  createdAt : ℚ
  expiresAt : ℚ
  programPath : String
  action : String
  deriving DecidableEq

/-- The ledger entry written by `create_firewall_rule_tool` (server.py
lines 356-365).  `t1` is the `time.time()` read on line 358 computing
`expires_at = time.time() + duration_minutes * 60`; `t2` is the separate
read on line 360 stored as `created_at` (so `t1 ≤ t2` in any real run). -/
def manualRuleEntry (t1 t2 : ℚ) (durationMinutes : ℚ)
    (programPath action : String) : FirewallRule where
  createdAt := t2
  expiresAt := t1 + durationMinutes * 60
  programPath := programPath
  action := action

/-- The ledger entry written by `_automated_response` (server.py lines
613-620).  `t1` is the `time.time()` read stored as `created_at` (line
616); `t2` the read on line 617 in `expires_at = time.time() +
self.rule_timeout_seconds` (so `t1 ≤ t2`). -/
def autoRuleEntry (t1 t2 : ℚ) (ruleTimeoutSeconds : ℚ)
    (programPath : String) : FirewallRule where
  createdAt := t1
  expiresAt := t2 + ruleTimeoutSeconds
  programPath := programPath
  action := "block"

/-- Phase one of `_cleanup_expired_firewall_rules` (server.py lines
659-664): collect the names of every tracked rule with
`current_time >= expires_at`, in ledger order. -/
def sweepExpired (now : ℚ) (ledger : List (RuleName × FirewallRule)) :
    List RuleName :=
  (ledger.filter (fun p => decide (now ≥ p.2.expiresAt))).map Prod.fst

/-- Phase two (server.py lines 666-679): for each collected name run the
`netsh ... delete rule` command; `removeOk` is the oracle for that
command succeeding (`returncode == 0`).  On success the entry is deleted
(`del self.active_firewall_rules[rule_name]`); on failure (or an
exception, both caught) the entry is left in place. -/
def sweepRemove (removeOk : RuleName → Bool) (names : List RuleName)
    (ledger : List (RuleName × FirewallRule)) :
    List (RuleName × FirewallRule) :=
  names.foldl
    (fun led n => if removeOk n then led.filter (fun p => !(p.1 == n)) else led)
    ledger

/-- The whole sweep: resulting ledger plus the list of names whose
removal was attempted. -/
def cleanupExpiredRules (removeOk : RuleName → Bool) (now : ℚ)
    (ledger : List (RuleName × FirewallRule)) :
    List (RuleName × FirewallRule) × List RuleName :=
  (sweepRemove removeOk (sweepExpired now ledger) ledger,
   sweepExpired now ledger)

/- ## Active-rule listing (`get_active_firewall_rules_tool`, lines 488-512) -/

/-- Python `round(x, 1)`.  (Python rounds ties to even; `round` here is
ties-up — the two agree everywhere except exact ties, which none of the
proved properties depend on.) -/
def roundTo1 (q : ℚ) : ℚ := (round (q * 10) : ℤ) / 10

/-- One element of the `active_rules` response array. -/
structure ActiveRuleEntry where
  entryName : RuleName
  programPath : String
  action : String
  createdAt : ℚ
  expiresAt : ℚ
  remainingMinutes : ℚ
  deriving DecidableEq

/-- `remaining_seconds = rule_info['expires_at'] - current_time;`
`remaining_minutes = max(0, remaining_seconds / 60)` rounded to one
decimal (server.py lines 495-506). -/
def mkActiveEntry (now : ℚ) (n : RuleName) (r : FirewallRule) :
    ActiveRuleEntry where
  entryName := n
  programPath := r.programPath
  action := r.action
  createdAt := r.createdAt
  expiresAt := r.expiresAt
  remainingMinutes := roundTo1 (max 0 ((r.expiresAt - now) / 60))

/-- The listing loop over `self.active_firewall_rules.items()`. -/
def listActiveRules (now : ℚ) (ledger : List (RuleName × FirewallRule)) :
    List ActiveRuleEntry :=
  ledger.map (fun p => mkActiveEntry now p.1 p.2)

/- ## Auto-response settings (`manage_auto_response_tool`, lines 408-425) -/

/-- The two mutable settings the tool touches. -/
structure ServerConfig where
  autoResponseEnabled : Bool
  ruleTimeoutSeconds : Nat
  deriving DecidableEq

/-- The response payload (`auto_response_enabled`,
`rule_timeout_minutes = self.rule_timeout_seconds // 60`). -/
structure AutoResponseView where
  autoResponseEnabled : Bool
  ruleTimeoutMinutes : Nat
  deriving DecidableEq

/-- `manage_auto_response_tool`: update whichever settings were passed,
then report the current state. -/
def manageAutoResponse (cfg : ServerConfig) (enabled : Option Bool)
    (timeoutMinutes : Option Nat) : ServerConfig × AutoResponseView :=
  let cfg1 := match enabled with
    | some b => { cfg with autoResponseEnabled := b }
    | none => cfg
  let cfg2 := match timeoutMinutes with
    | some m => { cfg1 with ruleTimeoutSeconds := m * 60 }
    | none => cfg1
  (cfg2,
   { autoResponseEnabled := cfg2.autoResponseEnabled,
     ruleTimeoutMinutes := cfg2.ruleTimeoutSeconds / 60 })

/- ## Alert queries (`get_security_alerts_tool`, lines 385-406) -/

/-- Python's tail slice `l[-k:]` for a non-negative `k` (note `l[-0:]`
is the whole list). -/
def lastSlice {α : Type} (k : Nat) (l : List α) : List α :=
  if k = 0 then l else l.drop (l.length - k)

/-- The `alerts` value computed by `get_security_alerts_tool`:
`self.security_alerts[-limit:] if not alert_type else
[a for a in self.security_alerts[-limit*2:] if a.get('type') == alert_type][-limit:]`.
Python truthiness sends both a missing filter and the empty string to the
unfiltered branch. -/
def getSecurityAlerts (limit : Nat) (alertTypeFilter : Option String)
    (log : List SecurityAlert) : List SecurityAlert :=
  match alertTypeFilter with
  | none => lastSlice limit log
  | some t =>
      if t = "" then lastSlice limit log
      else lastSlice limit ((lastSlice (limit * 2) log).filter (fun a => a.kind == t))

/-- The query behaviour as the spec words it (for the refinement
comparison only): a most-recent-first sequence of up to `limit` alerts,
the kind filter applied to the whole log. -/
def querySpecAlerts (limit : Nat) (alertTypeFilter : Option String)
    (log : List SecurityAlert) : List SecurityAlert :=
  match alertTypeFilter with
  | none => log.reverse.take limit
  | some t => (log.filter (fun a => a.kind == t)).reverse.take limit

/-- A three-alert log: one `suspicious_process` alert followed by two
newer `high_cpu_usage` alerts. -/
def alertOne : SecurityAlert :=
  .suspiciousProcess 1 "p1" "netstat -an".toList "netstat -an".toList 0

def alertTwo : SecurityAlert := .highCpuUsage 2 "p2" 95 1

def alertThree : SecurityAlert := .highCpuUsage 3 "p3" 96 2

def exampleLog : List SecurityAlert := [alertOne, alertTwo, alertThree]

/- ## Automated rule names (`_automated_response`, lines 603-621) -/

/-- The decimal digit characters of Python `str(int)`. -/
def digitChar : Nat → Char
  | 0 => '0'
  | 1 => '1'
  | 2 => '2'
  | 3 => '3'
  | 4 => '4'
  | 5 => '5'
  | 6 => '6'
  | 7 => '7'
  | 8 => '8'
  | _ => '9'

/-- Numeric value of a digit character (proof apparatus only). -/
def digitVal (c : Char) : Nat := c.toNat - 48

/-- Fuelled decimal printing; with fuel `> n` this is the usual decimal
representation of `n`, most significant digit first. -/
def natReprGo : Nat → Nat → List Char
  | 0, _ => []
  | fuel + 1, n =>
      if n < 10 then [digitChar n]
      else natReprGo fuel (n / 10) ++ [digitChar (n % 10)]

/-- Decimal representation of a natural, i.e. Python `str(n)`. -/
def natRepr (n : Nat) : List Char := natReprGo (n + 1) n

/-- Left-to-right decimal parsing (proof apparatus only). -/
def parseDigits (l : List Char) : Nat :=
  l.foldl (fun acc c => acc * 10 + digitVal c) 0

/-- `rule_name = f"MCP_BLOCK_{threat_info['pid']}_{int(time.time())}"`
(server.py line 608). -/
def autoRuleName (pid timeSec : Nat) : RuleName :=
  "MCP_BLOCK_".toList ++ natRepr pid ++ '_' :: natRepr timeSec

/-- One automated rule-creation event: the detection that triggered it
(pid and matched pattern) and the integer second at which the rule name
was minted. -/
structure ThreatEvent where
  pid : Nat
  timeSec : Nat
  pattern : List Char
  deriving DecidableEq

/-- The rule name `_automated_response` mints for an event. -/
def ThreatEvent.mintedName (e : ThreatEvent) : RuleName :=
  autoRuleName e.pid e.timeSec

/-- Python dict assignment `d[k] = v`: overwrite in place when the key
exists, append otherwise. -/
def dictInsert (k : RuleName) (v : FirewallRule)
    (d : List (RuleName × FirewallRule)) : List (RuleName × FirewallRule) :=
  if d.any (fun p => p.1 == k) then
    d.map (fun p => if p.1 == k then (k, v) else p)
  else d ++ [(k, v)]

/-- Two distinct detections of the same pid in the same second (one
command line matching two signatures produces exactly this). -/
def eventOne : ThreatEvent := ⟨5, 1000, "netstat -an".toList⟩

def eventTwo : ThreatEvent := ⟨5, 1000, "systeminfo".toList⟩

def ruleEntryOne : FirewallRule :=
  ⟨1000, 4600, "C:/tools/net.exe", "block"⟩

def ruleEntryTwo : FirewallRule :=
  ⟨1000, 4600, "C:/tools/sys.exe", "block"⟩

/- ## External firewall command invocations (`_create_firewall_rule`,
lines 638-655, and the removal in `_cleanup_expired_firewall_rules`,
lines 666-679) -/

/-- The arguments the server passes to `subprocess.run`. -/
structure SubprocessCall where
  argv : List String
  captureOutput : Bool
  textMode : Bool
  shell : Bool
  timeoutSeconds : Option ℚ
  deriving DecidableEq

/-- The `netsh advfirewall firewall add rule` invocation built by
`_create_firewall_rule`: `subprocess.run(cmd, capture_output=True,
text=True, shell=True)` — no `timeout=` argument appears. -/
def addRuleCall (ruleLabel programPath action : String) : SubprocessCall where
  argv := ["netsh", "advfirewall", "firewall", "add", "rule",
           "name=" ++ ruleLabel, "dir=out", "action=" ++ action,
           "program=" ++ programPath, "enable=yes"]
  captureOutput := true
  textMode := true
  shell := true
  timeoutSeconds := none

/-- The `netsh advfirewall firewall delete rule` invocation in
`_cleanup_expired_firewall_rules`, likewise without a `timeout=`. -/
def deleteRuleCall (ruleLabel : String) : SubprocessCall where
  argv := ["netsh", "advfirewall", "firewall", "delete", "rule",
           "name=" ++ ruleLabel]
  captureOutput := true
  textMode := true
  shell := true
  timeoutSeconds := none

/-- The value `_create_firewall_rule` returns to its caller: `True` iff
the invocation ran and exited 0; any raised exception is caught and
reported as `False`. -/
def createRuleResult (outcome : Except String Int) : Bool :=
  match outcome with
  | .ok returncode => returncode == 0
  | .error _ => false

/- ## The tool dispatcher (`handle_call_tool`, lines 150-178) -/

/-- Shape of what a dispatcher branch returns: a `[TextContent(...)]`
list, or the raw dict the advanced tool methods return. -/
inductive ToolResponse where
  | textContentList
  | toolDict
  deriving DecidableEq

/-- `handle_call_tool`'s branch structure.  The `check_firewall_rules`
branch assigns `result = await self.check_firewall_rules()` but has no
`return`, so the function falls off the `elif` chain and returns `None`;
an unknown name raises `ValueError` (modelled as `Except.error`).
Branch selection depends only on the tool name, never on `arguments`. -/
def handleCallTool (toolName : String) (_arguments : List (String × String)) :
    Except String (Option ToolResponse) :=
  if toolName = "monitor_system_resources" then .ok (some .textContentList)
  else if toolName = "get_windows_security_status" then .ok (some .textContentList)
  else if toolName = "check_firewall_rules" then .ok none
  else if toolName = "create_firewall_rule" then .ok (some .toolDict)
  else if toolName = "get_security_alerts" then .ok (some .toolDict)
  else if toolName = "manage_auto_response" then .ok (some .toolDict)
  else if toolName = "scan_network_connections" then .ok (some .toolDict)
  else if toolName = "get_active_firewall_rules" then .ok (some .toolDict)
  else .error ("Unknown tool: " ++ toolName)

/-- A process whose argv joins to `"NetStat -An"`, matching the
`"netstat -an"` signature only case-insensitively. -/
def scanFact : ProcessFact where
  pid := 9
  procName := "netstat.exe"
  cmdline := ["NetStat".toList, "-An".toList]
  cpuPercent := some 1
  memoryPercent := some 1

/- # Theorems -/

theorem listContains_iff (needle haystack : List Char) :
    listContains needle haystack = true ↔ needle <:+: haystack := by
  unfold listContains
  rw [List.any_eq_true, List.infix_iff_prefix_suffix]
  constructor
  · rintro ⟨t, ht, hp⟩
    exact ⟨t, List.isPrefixOf_iff_prefix.mp hp, (List.mem_tails _ _).mp ht⟩
  · rintro ⟨t, hp, hs⟩
    exact ⟨t, (List.mem_tails _ _).mpr hs, List.isPrefixOf_iff_prefix.mpr hp⟩

/-- C5: the matcher produces a suspicious-process alert for (P, S) iff S's
text occurs as a case-insensitive substring of P's command line: against
the singleton catalog {S} the match is non-empty iff the lower-cased S is
an infix of the lower-cased command line, and in general the alert built
from pattern S is among the raised alerts iff S is in the catalog and that
substring condition holds. -/
theorem commandSignature_match_iff (S : List Char) (P : ProcessFact) (now : ℚ) :
    (commandAlerts [S] now P ≠ [] ↔
      lowerChars S <:+: lowerChars (joinedCmdline P))
    ∧ ∀ patterns : List (List Char),
        (SecurityAlert.suspiciousProcess P.pid P.procName (joinedCmdline P) S now
            ∈ commandAlerts patterns now P ↔
          S ∈ patterns ∧ lowerChars S <:+: lowerChars (joinedCmdline P)) := by
  constructor
  · unfold commandAlerts
    by_cases h : listContains (lowerChars S) (lowerChars (joinedCmdline P)) = true
    · simp [h, (listContains_iff _ _).mp h]
    · rw [listContains_iff] at h
      simp [(listContains_iff _ _), h]
  · intro patterns
    unfold commandAlerts
    rw [List.mem_filterMap]
    constructor
    · rintro ⟨pat, hmem, hf⟩
      by_cases h : listContains (lowerChars pat) (lowerChars (joinedCmdline P)) = true
      · rw [if_pos h] at hf
        obtain ⟨-, -, -, rfl, -⟩ := SecurityAlert.suspiciousProcess.inj (Option.some.inj hf)
        exact ⟨hmem, (listContains_iff _ _).mp h⟩
      · rw [if_neg h] at hf
        exact absurd hf (by simp)
    · rintro ⟨hmem, hsub⟩
      exact ⟨S, hmem, by rw [if_pos ((listContains_iff _ _).mpr hsub)]⟩

end WinSec

namespace WinSec

/-- C6 (amended): `_monitor_threats` raises a resource-usage alert for a
sampled process iff its cpu sample is present, non-zero and strictly
above `high_cpu_threshold`; the memory sample never influences the
outcome (the configured `high_memory_threshold` is never consulted). -/
theorem resource_alert_cpu_only (now : ℚ) (p : ProcessFact) :
    ((cpuAlert loadThreatPatterns now p).isSome = true ↔
      ∃ c, p.cpuPercent = some c ∧ c ≠ 0 ∧
        c > loadThreatPatterns.highCpuThreshold)
    ∧ ∀ q : Option ℚ,
        cpuAlert loadThreatPatterns now { p with memoryPercent := q } =
          cpuAlert loadThreatPatterns now p := by
  constructor
  · cases hc : p.cpuPercent with
    | none => simp [cpuAlert, hc]
    | some c =>
        by_cases h : c ≠ 0 ∧ c > loadThreatPatterns.highCpuThreshold
        · simp [cpuAlert, hc, h]
        · simp only [cpuAlert, hc, if_neg h, Option.isSome_none,
            Bool.false_eq_true, false_iff]
          rintro ⟨c', hc', h'⟩
          cases Option.some.inj hc'
          exact h h'
  · intro q
    cases hc : p.cpuPercent <;> simp [cpuAlert, hc]

/-- C6 counterexample: a process whose memory usage (99%) strictly
exceeds the configured memory threshold (85) yields no alert at all, so
the memory metric does not produce alerts as claimed. -/
theorem resource_alert_memory_cex :
    memHogFact.memoryPercent = some 99
    ∧ loadThreatPatterns.highMemoryThreshold < 99
    ∧ monitorProcess loadThreatPatterns 0 memHogFact = [] := by
  refine ⟨rfl, by norm_num [loadThreatPatterns], by rfl⟩

/-- C6 witness: a concrete process with cpu 95% (> 90) is flagged, per
`resource_alert_cpu_only`. -/
theorem resource_alert_cpu_only_witness :
    (cpuAlert loadThreatPatterns 0
      { pid := 3, procName := "busy", cmdline := [],
        cpuPercent := some 95, memoryPercent := none }).isSome = true :=
  (resource_alert_cpu_only 0 _).1.mpr ⟨95, rfl, by norm_num, by norm_num [loadThreatPatterns]⟩

/-- C9: every entry the active-rules listing returns has
`remaining_minutes ≥ 0`, and an overdue rule (`expires_at ≤ now`) is
reported with `remaining_minutes = 0`, never a negative value. -/
theorem active_rules_remaining_nonneg :
    (∀ (now : ℚ) (ledger : List (RuleName × FirewallRule)),
        ∀ e ∈ listActiveRules now ledger, 0 ≤ e.remainingMinutes)
    ∧ ∀ (now : ℚ) (n : RuleName) (r : FirewallRule),
        r.expiresAt ≤ now → (mkActiveEntry now n r).remainingMinutes = 0 := by
  have hnn : ∀ q : ℚ, 0 ≤ roundTo1 (max 0 q) := by
    intro q
    unfold roundTo1
    have h0 : (0:ℚ) ≤ max 0 q * 10 :=
      mul_nonneg (le_max_left 0 q) (by norm_num)
    have h1 : (0:ℤ) ≤ round (max 0 q * 10) := by
      rw [round_eq]
      exact Int.floor_nonneg.mpr (by linarith)
    exact div_nonneg (by exact_mod_cast h1) (by norm_num)
  constructor
  · intro now ledger e he
    unfold listActiveRules at he
    rw [List.mem_map] at he
    obtain ⟨p, -, rfl⟩ := he
    exact hnn _
  · intro now n r h
    show roundTo1 (max 0 ((r.expiresAt - now) / 60)) = 0
    have hle : (r.expiresAt - now) / 60 ≤ 0 :=
      div_nonpos_of_nonpos_of_nonneg (sub_nonpos.mpr h) (by norm_num)
    rw [max_eq_left hle]
    unfold roundTo1
    norm_num

/-- C9 witness: a live rule (expires 100 at now = 50) has nonnegative
remaining minutes, and an overdue one (expired at 10) reports 0. -/
theorem active_rules_remaining_nonneg_witness :
    (0:ℚ) ≤ (mkActiveEntry 50 ['a'] ⟨0, 100, "x", "block"⟩).remainingMinutes
    ∧ (mkActiveEntry 50 ['b'] ⟨0, 10, "y", "block"⟩).remainingMinutes = 0 :=
  ⟨active_rules_remaining_nonneg.1 50 [(['a'], ⟨0, 100, "x", "block"⟩)] _
      (by simp [listActiveRules]),
   active_rules_remaining_nonneg.2 50 ['b'] ⟨0, 10, "y", "block"⟩ (by norm_num)⟩

/-- C10: setting `timeout_minutes = m` stores exactly `m * 60` seconds
and the response reports `rule_timeout_minutes = m`, for every
non-negative integer `m` and any prior settings. -/
theorem auto_response_timeout_roundtrip (cfg : ServerConfig)
    (enabled : Option Bool) (m : Nat) :
    (manageAutoResponse cfg enabled (some m)).2.ruleTimeoutMinutes = m
    ∧ (manageAutoResponse cfg enabled (some m)).1.ruleTimeoutSeconds = m * 60 := by
  cases enabled <;> refine ⟨?_, rfl⟩ <;> show m * 60 / 60 = m <;> omega

/-- C2: neither the rule-creation nor the rule-removal invocation of the
external firewall command carries a timeout bound — `subprocess.run` is
called without a `timeout=` argument in both places, contradicting the
mandated explicit timeout. -/
theorem firewall_calls_no_timeout (ruleLabel programPath action : String) :
    (addRuleCall ruleLabel programPath action).timeoutSeconds = none
    ∧ (deleteRuleCall ruleLabel).timeoutSeconds = none :=
  ⟨rfl, rfl⟩

/-- C8: the dispatcher's `check_firewall_rules` branch computes a result
but never returns it, so the call returns `None` instead of a payload,
for every argument set. -/
theorem check_firewall_rules_returns_none
    (arguments : List (String × String)) :
    handleCallTool "check_firewall_rules" arguments = .ok none := rfl

end WinSec

namespace WinSec

/-- C5 witness: the case-mixed `"NetStat -An"` command line is flagged
against the `"netstat -an"` signature. -/
theorem commandSignature_match_iff_witness :
    commandAlerts ["netstat -an".toList] 0 scanFact ≠ [] :=
  (commandSignature_match_iff "netstat -an".toList scanFact 0).1.mpr
    ((listContains_iff _ _).mp (by decide))

/- ## The sweep (C1) -/

/-- In a ledger whose keys are nodup, an entry is determined by its key. -/
theorem key_unique {α β : Type} {l : List (α × β)}
    (hU : (l.map Prod.fst).Nodup) {k : α} {v v' : β}
    (h1 : (k, v) ∈ l) (h2 : (k, v') ∈ l) : v = v' := by
  induction l with
  | nil => cases h1
  | cons a t ih =>
      rw [List.map_cons, List.nodup_cons] at hU
      rcases List.mem_cons.mp h1 with h1 | h1 <;>
        rcases List.mem_cons.mp h2 with h2 | h2
      · rw [← h2] at h1
        exact (Prod.mk.inj h1).2
      · exact absurd (List.mem_map_of_mem Prod.fst h2)
          (by rw [← h1] at hU; exact hU.1)
      · exact absurd (List.mem_map_of_mem Prod.fst h1)
          (by rw [← h2] at hU; exact hU.1)
      · exact ih hU.2 h1 h2

/-- Unrolling the removal fold: an entry survives phase two iff it was in
the ledger and no successful removal targeted its name. -/
theorem mem_sweepRemove (removeOk : RuleName → Bool) (names : List RuleName)
    (ledger : List (RuleName × FirewallRule)) (e : RuleName × FirewallRule) :
    e ∈ sweepRemove removeOk names ledger ↔
      e ∈ ledger ∧ ¬∃ n ∈ names, removeOk n = true ∧ e.1 = n := by
  induction names generalizing ledger with
  | nil => simp [sweepRemove]
  | cons n ns ih =>
      show e ∈ sweepRemove removeOk ns
          (if removeOk n then ledger.filter (fun p => !(p.1 == n)) else ledger) ↔ _
      rw [ih]
      by_cases hr : removeOk n = true
      · rw [if_pos hr, List.mem_filter]
        constructor
        · rintro ⟨⟨hmem, hne⟩, hrest⟩
          refine ⟨hmem, ?_⟩
          rintro ⟨m, hm, hok, heq⟩
          rcases List.mem_cons.mp hm with rfl | hm
          · rw [heq] at hne
            simp at hne
          · exact hrest ⟨m, hm, hok, heq⟩
        · rintro ⟨hmem, hno⟩
          have hne : e.1 ≠ n := fun hEq => hno ⟨n, List.mem_cons_self n ns, hr, hEq⟩
          refine ⟨⟨hmem, by simp [hne]⟩, ?_⟩
          rintro ⟨m, hm, hok, heq⟩
          exact hno ⟨m, List.mem_cons_of_mem n hm, hok, heq⟩
      · rw [if_neg hr]
        constructor
        · rintro ⟨hmem, hrest⟩
          refine ⟨hmem, ?_⟩
          rintro ⟨m, hm, hok, heq⟩
          rcases List.mem_cons.mp hm with rfl | hm
          · exact hr hok
          · exact hrest ⟨m, hm, hok, heq⟩
        · rintro ⟨hmem, hno⟩
          refine ⟨hmem, ?_⟩
          rintro ⟨m, hm, hok, heq⟩
          exact hno ⟨m, List.mem_cons_of_mem n hm, hok, heq⟩

/-- Phase-one characterization under nodup keys: a tracked rule's name is
collected iff the rule is due. -/
theorem mem_sweepExpired (now : ℚ) (ledger : List (RuleName × FirewallRule))
    (hU : (ledger.map Prod.fst).Nodup) (n : RuleName) (r : FirewallRule)
    (hmem : (n, r) ∈ ledger) :
    n ∈ sweepExpired now ledger ↔ r.expiresAt ≤ now := by
  unfold sweepExpired
  rw [List.mem_map]
  constructor
  · rintro ⟨⟨n', r'⟩, hmem', hn⟩
    rw [List.mem_filter] at hmem'
    cases hn
    rw [key_unique hU hmem hmem'.1]
    simpa [ge_iff_le] using hmem'.2
  · intro h
    exact ⟨(n, r), List.mem_filter.mpr ⟨hmem, by simpa [ge_iff_le] using h⟩, rfl⟩

/-- C1: one sweep attempts removal exactly of the tracked rules whose
`expires_at` is ≤ the current time; a due rule's entry is deleted iff its
removal succeeded, stays tracked unchanged iff it failed, and a rule that
is not yet due is neither attempted nor touched. -/
theorem sweep_correct (removeOk : RuleName → Bool) (now : ℚ)
    (ledger : List (RuleName × FirewallRule))
    (hU : (ledger.map Prod.fst).Nodup)
    (n : RuleName) (r : FirewallRule) (hmem : (n, r) ∈ ledger) :
    (n ∈ (cleanupExpiredRules removeOk now ledger).2 ↔ r.expiresAt ≤ now)
    ∧ ((n, r) ∈ (cleanupExpiredRules removeOk now ledger).1 ↔
        ¬(r.expiresAt ≤ now ∧ removeOk n = true)) := by
  have hexp := mem_sweepExpired now ledger hU n r hmem
  refine ⟨hexp, ?_⟩
  show (n, r) ∈ sweepRemove removeOk (sweepExpired now ledger) ledger ↔ _
  rw [mem_sweepRemove]
  constructor
  · rintro ⟨-, hno⟩ ⟨hdue, hok⟩
    exact hno ⟨n, hexp.mpr hdue, hok, rfl⟩
  · intro hnot
    refine ⟨hmem, ?_⟩
    rintro ⟨m, hm, hok, heq⟩
    cases heq
    exact hnot ⟨hexp.mp hm, hok⟩

/-- C1 witness: a three-rule ledger at `now = 50` — rule `a` (expired,
removal succeeds) is attempted and deleted; rule `c` (expired, removal
fails) is attempted and stays; rule `b` (expires at 100) is untouched. -/
theorem sweep_correct_witness :
    (([(['a'], (⟨0, 10, "pa", "block"⟩ : FirewallRule)),
       (['b'], ⟨0, 100, "pb", "block"⟩),
       (['c'], ⟨0, 20, "pc", "block"⟩)].map Prod.fst).Nodup
      ∧ (['c'], (⟨0, 20, "pc", "block"⟩ : FirewallRule)) ∈
          [(['a'], (⟨0, 10, "pa", "block"⟩ : FirewallRule)),
           (['b'], ⟨0, 100, "pb", "block"⟩),
           (['c'], ⟨0, 20, "pc", "block"⟩)])
    ∧ ((['c'] ∈ (cleanupExpiredRules (fun m => m == ['a']) 50
          [(['a'], ⟨0, 10, "pa", "block"⟩),
           (['b'], ⟨0, 100, "pb", "block"⟩),
           (['c'], ⟨0, 20, "pc", "block"⟩)]).2 ↔
        (20:ℚ) ≤ 50)
      ∧ ((['c'], (⟨0, 20, "pc", "block"⟩ : FirewallRule)) ∈
          (cleanupExpiredRules (fun m => m == ['a']) 50
            [(['a'], ⟨0, 10, "pa", "block"⟩),
             (['b'], ⟨0, 100, "pb", "block"⟩),
             (['c'], ⟨0, 20, "pc", "block"⟩)]).1 ↔
        ¬((20:ℚ) ≤ 50 ∧ (fun m => m == ['a']) ['c'] = true))) :=
  ⟨⟨by decide, by decide⟩,
   sweep_correct (fun m => m == ['a']) 50
     [(['a'], ⟨0, 10, "pa", "block"⟩),
      (['b'], ⟨0, 100, "pb", "block"⟩),
      (['c'], ⟨0, 20, "pc", "block"⟩)] (by decide)
     ['c'] ⟨0, 20, "pc", "block"⟩ (by decide)⟩

end WinSec

namespace WinSec

/- ## Alert queries (C3) -/

theorem lastSlice_sublist {α : Type} (k : Nat) (l : List α) :
    List.Sublist (lastSlice k l) l := by
  unfold lastSlice
  split
  · exact List.Sublist.refl l
  · exact List.drop_sublist _ l

theorem lastSlice_length_le {α : Type} (k : Nat) (hk : 0 < k) (l : List α) :
    (lastSlice k l).length ≤ k := by
  unfold lastSlice
  rw [if_neg (by omega)]
  rw [List.length_drop]
  omega

/-- C3 counterexample: with log `[alertOne (suspicious_process),
alertTwo, alertThree (high_cpu_usage)]` and `limit = 1`, the kind filter
`"suspicious_process"` returns nothing, although the log holds a matching
alert with zero newer matching alerts — because only the last
`2 * limit = 2` entries are scanned; the spec-worded query returns it. -/
theorem alerts_query_window_cex :
    getSecurityAlerts 1 (some "suspicious_process") exampleLog = []
    ∧ querySpecAlerts 1 (some "suspicious_process") exampleLog = [alertOne] := by
  exact ⟨by decide, by decide⟩

/-- C3 (amended): for `limit ≥ 1` the query returns, in insertion
(oldest-first) order, at most `limit` alerts; with a non-empty kind
filter every returned alert has that kind and the result is a
subsequence of the matching alerts, but it is drawn only from the last
`2 * limit` log entries, so a matching alert may be omitted even when at
most `limit` newer matching alerts exist. -/
theorem alerts_query_amended (limit : Nat) (hl : 0 < limit) (t : String)
    (ht : t ≠ "") (log : List SecurityAlert) :
    (getSecurityAlerts limit (some t) log).length ≤ limit
    ∧ List.Sublist (getSecurityAlerts limit (some t) log)
        (log.filter (fun a => a.kind == t))
    ∧ (∀ a ∈ getSecurityAlerts limit (some t) log, a.kind = t)
    ∧ (getSecurityAlerts limit none log).length ≤ limit
    ∧ List.Sublist (getSecurityAlerts limit none log) log := by
  have hq : getSecurityAlerts limit (some t) log =
      lastSlice limit
        ((lastSlice (limit * 2) log).filter (fun a => a.kind == t)) := by
    simp [getSecurityAlerts, ht]
  have hsub : List.Sublist (getSecurityAlerts limit (some t) log)
      (log.filter (fun a => a.kind == t)) := by
    rw [hq]
    exact (lastSlice_sublist _ _).trans ((lastSlice_sublist _ _).filter _)
  refine ⟨?_, hsub, ?_, ?_, ?_⟩
  · rw [hq]
    exact lastSlice_length_le _ hl _
  · intro a ha
    have := hsub.subset ha
    have h2 := List.mem_filter.mp this
    simpa using h2.2
  · exact lastSlice_length_le _ hl _
  · exact lastSlice_sublist _ _

/-- C3 witness: `alerts_query_amended` applied to the three-alert log at
`limit = 1`, filter `"suspicious_process"`. -/
theorem alerts_query_amended_witness :
    ((0:Nat) < 1 ∧ "suspicious_process" ≠ "")
    ∧ (getSecurityAlerts 1 (some "suspicious_process") exampleLog).length ≤ 1
    ∧ ∀ a ∈ getSecurityAlerts 1 (some "suspicious_process") exampleLog,
        a.kind = "suspicious_process" :=
  ⟨⟨by decide, by decide⟩,
   (alerts_query_amended 1 (by decide) "suspicious_process" (by decide)
      exampleLog).1,
   (alerts_query_amended 1 (by decide) "suspicious_process" (by decide)
      exampleLog).2.2.1⟩

/- ## Rule expiry invariant (C4) -/

/-- C4 counterexample: a manual creation with `duration_minutes = 0` and
coincident clock reads stores `expires_at = created_at`, so `expires_at`
is not strictly greater than `created_at` for that tracked rule. -/
theorem rule_expiry_strict_cex :
    ¬ ((manualRuleEntry 100 100 0 "/bin/x" "block").createdAt
        < (manualRuleEntry 100 100 0 "/bin/x" "block").expiresAt) := by
  show ¬ ((100:ℚ) < 100 + 0 * 60)
  norm_num

/-- C4 (amended): `expires_at > created_at` holds for a manual rule
whenever `duration_minutes * 60` exceeds the clock advance between the
two `time.time()` reads (so always when `duration_minutes > 0` and reads
coincide), and for an automated rule whenever the configured TTL is
positive. -/
theorem rule_expiry_strict_amended :
    (∀ (t1 t2 m : ℚ) (programPath action : String), t2 - t1 < m * 60 →
      (manualRuleEntry t1 t2 m programPath action).createdAt
        < (manualRuleEntry t1 t2 m programPath action).expiresAt)
    ∧ ∀ (t1 t2 ttl : ℚ) (programPath : String), t1 ≤ t2 → 0 < ttl →
      (autoRuleEntry t1 t2 ttl programPath).createdAt
        < (autoRuleEntry t1 t2 ttl programPath).expiresAt := by
  constructor
  · intro t1 t2 m p a h
    show t2 < t1 + m * 60
    linarith
  · intro t1 t2 ttl p h httl
    show t1 < t2 + ttl
    linarith

/-- C4 witness: the default manual duration (60 minutes) and the default
automated TTL (3600 seconds) both give a strictly later expiry. -/
theorem rule_expiry_strict_amended_witness :
    ((0:ℚ) - 0 < 60 * 60
      ∧ (manualRuleEntry 0 0 60 "/bin/x" "block").createdAt
          < (manualRuleEntry 0 0 60 "/bin/x" "block").expiresAt)
    ∧ ((0:ℚ) ≤ 0 ∧ (0:ℚ) < 3600
      ∧ (autoRuleEntry 0 0 3600 "C:/x.exe").createdAt
          < (autoRuleEntry 0 0 3600 "C:/x.exe").expiresAt) :=
  ⟨⟨by norm_num,
    rule_expiry_strict_amended.1 0 0 60 "/bin/x" "block" (by norm_num)⟩,
   ⟨le_refl 0, by norm_num,
    rule_expiry_strict_amended.2 0 0 3600 "C:/x.exe" (le_refl 0) (by norm_num)⟩⟩

end WinSec

namespace WinSec

/- ## Automated rule names (C7) -/

theorem digitVal_digitChar : ∀ k < 10, digitVal (digitChar k) = k := by decide

theorem digitChar_ne_underscore : ∀ k < 10, digitChar k ≠ '_' := by decide

theorem parseDigits_append (l : List Char) (c : Char) :
    parseDigits (l ++ [c]) = parseDigits l * 10 + digitVal c := by
  unfold parseDigits
  rw [List.foldl_append]
  rfl

theorem parseDigits_natReprGo :
    ∀ fuel n, n < fuel → parseDigits (natReprGo fuel n) = n := by
  intro fuel
  induction fuel with
  | zero => intro n h; omega
  | succ f ih =>
      intro n h
      unfold natReprGo
      by_cases h10 : n < 10
      · rw [if_pos h10]
        show parseDigits [digitChar n] = n
        have hd := digitVal_digitChar n h10
        simp [parseDigits, hd]
      · rw [if_neg h10]
        rw [parseDigits_append, ih (n / 10) (by omega)]
        rw [digitVal_digitChar (n % 10) (by omega)]
        omega

/-- Decimal printing is injective: it parses back to its argument. -/
theorem parseDigits_natRepr (n : Nat) : parseDigits (natRepr n) = n :=
  parseDigits_natReprGo (n + 1) n (by omega)

theorem natRepr_inj {a b : Nat} (h : natRepr a = natRepr b) : a = b := by
  have ha := parseDigits_natRepr a
  rw [h, parseDigits_natRepr b] at ha
  omega

theorem underscore_not_mem_natReprGo :
    ∀ fuel n, '_' ∉ natReprGo fuel n := by
  intro fuel
  induction fuel with
  | zero => intro n; simp [natReprGo]
  | succ f ih =>
      intro n
      unfold natReprGo
      by_cases h10 : n < 10
      · rw [if_pos h10]
        simp only [List.mem_singleton]
        intro he
        exact digitChar_ne_underscore n h10 he.symm
      · rw [if_neg h10]
        intro hmem
        rcases List.mem_append.mp hmem with hmem | hmem
        · exact ih _ hmem
        · rw [List.mem_singleton] at hmem
          exact digitChar_ne_underscore (n % 10) (by omega) hmem.symm

theorem underscore_not_mem_natRepr (n : Nat) : '_' ∉ natRepr n :=
  underscore_not_mem_natReprGo (n + 1) n

/-- Splitting at a separator absent from both left parts is unambiguous. -/
theorem sep_append_inj {α : Type} (x : α) :
    ∀ (a c b d : List α), x ∉ a → x ∉ c →
      a ++ x :: b = c ++ x :: d → a = c ∧ b = d := by
  intro a
  induction a with
  | nil =>
      intro c b d _ hc h
      cases c with
      | nil =>
          refine ⟨rfl, ?_⟩
          simpa using h
      | cons y c' =>
          rw [List.nil_append, List.cons_append] at h
          injection h with h1 h2
          exact absurd (h1 ▸ List.mem_cons_self y c') hc
  | cons y a' ih =>
      intro c b d ha hc h
      cases c with
      | nil =>
          rw [List.cons_append, List.nil_append] at h
          injection h with h1 h2
          exact absurd (h1.symm ▸ List.mem_cons_self y a') ha
      | cons z c' =>
          rw [List.cons_append, List.cons_append] at h
          injection h with h1 h2
          subst h1
          obtain ⟨he, hb⟩ := ih c' b d
            (fun hx => ha (List.mem_cons_of_mem y hx))
            (fun hx => hc (List.mem_cons_of_mem y hx)) h2
          exact ⟨by rw [he], hb⟩

/-- C7 (amended): two automated rule-creation events mint the same rule
name iff they share both the pid and the integer second of creation;
hence names are unique across differing (pid, second) pairs, but repeated
detections of one pid within one second reuse the name and the later
dict insertion replaces the earlier ledger entry. -/
theorem auto_rule_name_inj (p1 t1 p2 t2 : Nat) :
    autoRuleName p1 t1 = autoRuleName p2 t2 ↔ p1 = p2 ∧ t1 = t2 := by
  constructor
  · intro h
    unfold autoRuleName at h
    rw [List.append_assoc, List.append_assoc] at h
    have h2 := List.append_cancel_left h
    obtain ⟨hp, ht⟩ := sep_append_inj '_' (natRepr p1) (natRepr p2)
      (natRepr t1) (natRepr t2)
      (underscore_not_mem_natRepr p1) (underscore_not_mem_natRepr p2) h2
    exact ⟨natRepr_inj hp, natRepr_inj ht⟩
  · rintro ⟨rfl, rfl⟩
    rfl

/-- C7 counterexample: two distinct detections (different matched
signatures) of pid 5 in the same second mint the same rule name, and
inserting the second rule overwrites the first ledger entry. -/
theorem auto_rule_name_collision_cex :
    eventOne ≠ eventTwo
    ∧ eventOne.mintedName = eventTwo.mintedName
    ∧ dictInsert eventTwo.mintedName ruleEntryTwo
        (dictInsert eventOne.mintedName ruleEntryOne [])
      = [(eventOne.mintedName, ruleEntryTwo)] := by
  refine ⟨by decide, rfl, by decide⟩

end WinSec
